import Mathlib

/-!
Verification of the check-maildomain repository: a shallow embedding of its
DNS record parsers (SPF, DMARC, MX) and of its rule engine, together with
theorems settling the specification claims about them.

Conventions of the embedding:
* Go strings are Lean `String`s; the Go standard-library string functions
  used by the code (`strings.Split`, `strings.TrimSpace`, `strings.Fields`,
  `strings.HasPrefix`, `strings.TrimPrefix`, `strings.TrimSuffix`,
  `strings.ToLower`, `strings.Join`, `strings.SplitN(s, sep, 2)`) are
  modelled by the `go*` functions below, working on `String.data`.
* DNS network exchanges are external collaborators: lookups take the answer
  sets (or an error, for transport failure / non-success response codes)
  as explicit arguments.
* Go `nil` pointers become `Option.none`; Go `(value, error)` pairs where
  the error matters become `Except String`.
* Go maps become functions `String → Option String` (for DMARC tags) or
  insertion-ordered association lists plus an explicit iteration-order
  parameter (for the rule-15 map, whose Go iteration order is unspecified).
-/

/-- Models Go `strings.ToLower` (case folding; the records involved are ASCII). -/
def goToLower (s : String) : String := ⟨s.data.map Char.toLower⟩

/-- Models Go `strings.HasPrefix s pre`. -/
def goStartsWith (s pre : String) : Bool := pre.data.isPrefixOf s.data

/-- Models Go `strings.TrimSpace` (leading and trailing whitespace). -/
def goTrim (s : String) : String :=
  ⟨((s.data.dropWhile Char.isWhitespace).reverse.dropWhile Char.isWhitespace).reverse⟩

/-- Splits a character list on a separator character; `splitCh sep "a;b"` is
`["a", "b"]`, empty pieces are kept, the empty input gives `[[]]` - the
semantics of Go `strings.Split` with a one-character separator. -/
def splitCh (sep : Char) (l : List Char) : List (List Char) :=
  l.foldr (fun c acc =>
    match acc with
    | [] => [[c]]
    | g :: gs => if c = sep then [] :: g :: gs else (c :: g) :: gs) [[]]

/-- Models Go `strings.Split s sep` for the one-character separators the code uses. -/
def goSplit (s : String) (sep : Char) : List String :=
  (splitCh sep s.data).map (fun g => ⟨g⟩)

/-- Models Go `strings.TrimPrefix s pre`. -/
def goTrimPre (s pre : String) : String :=
  if pre.data.isPrefixOf s.data then ⟨s.data.drop pre.data.length⟩ else s

/-- Models Go `strings.TrimSuffix s sfx`. -/
def goTrimSfx (s sfx : String) : String :=
  if sfx.data.isSuffixOf s.data then ⟨s.data.take (s.data.length - sfx.data.length)⟩ else s

/-- Splits at the first occurrence of `sep`, returning the pieces before and
after it, or `none` when `sep` does not occur. `splitFirst '=' part` models Go
`strings.SplitN(part, "=", 2)`: `none` is the length-1 result. -/
def splitFirst (sep : Char) : List Char → Option (List Char × List Char)
  | [] => none
  | c :: cs =>
    if c = sep then some ([], cs)
    else (splitFirst sep cs).map (fun p => (c :: p.1, p.2))

/-- Go `strings.SplitN(part, "=", 2)` as used by the DMARC parser: `some (k, v)`
when `part` contains `=`, otherwise `none`. -/
def splitFirstEq (part : String) : Option (String × String) :=
  (splitFirst '=' part.data).map (fun p => (⟨p.1⟩, ⟨p.2⟩))

/-- Accumulator for `fieldsAux`: `cur` is the reversed current field. -/
def fieldsAux (cur : List Char) : List Char → List (List Char)
  | [] => if cur = [] then [] else [cur.reverse]
  | c :: cs =>
    if c.isWhitespace then
      if cur = [] then fieldsAux [] cs else cur.reverse :: fieldsAux [] cs
    else fieldsAux (c :: cur) cs

/-- Models Go `strings.Fields`: splits around runs of whitespace, dropping
empty fields. -/
def goFields (s : String) : List String := (fieldsAux [] s.data).map (fun g => ⟨g⟩)

/-- Models Go `strings.Join`. -/
def goJoin (elems : List String) (sep : String) : String := String.intercalate sep elems

/-! ## SPF parser (internal/spf) -/

/-- `spf.SPFRecord`. -/
structure SPFRecord where
  Raw : String
  Version : String
  Terms : List String
deriving DecidableEq

/-- The record-construction step shared by `LookupSPF` and
`LookupSPFWithFallback` for a TXT value that matched the `v=spf1` prefix:
`terms := strings.Fields(txtValue)`, version from `terms[0]`, terms from
`terms[1:]`. The `none` case is where the Go code would index `terms[0]`
out of bounds (a panic); the safety claim shows it is unreachable for
matched records. -/
def parseSPFText (txtValue : String) : Option SPFRecord :=
  match goFields txtValue with
  | [] => none
  | t0 :: rest => some { Raw := txtValue, Version := goTrimPre t0 "v=", Terms := rest }

/-- `spf.LookupSPF` over the TXT answer set (each entry the joined chunks of
one TXT record); transport errors and non-success response codes are the
callers' `nil, err` path and are outside the answer list. Returns `none`
when no record matches the case-insensitive `v=spf1` prefix. -/
def lookupSPF (answers : List String) : Option SPFRecord :=
  match answers.find? (fun txtValue => goStartsWith (goToLower txtValue) "v=spf1") with
  | some txtValue => parseSPFText txtValue
  | none => none

/-- `spf.LookupSPFWithFallback`: the primary result when it succeeded,
otherwise the same matching logic over the system resolver's TXT records. -/
def lookupSPFWithFallback (primary : Option SPFRecord) (sysTxt : List String) :
    Option SPFRecord :=
  match primary with
  | some record => some record
  | none => lookupSPF sysTxt

/-! ## DMARC parser (internal/dmarc) -/

/-- `dmarc.DMARCRecord`; the Go `map[string]string` of tags is modelled as a
lookup function. -/
structure DMARCRecord where
  Raw : String
  Version : String
  Tags : String → Option String
  Valid : Bool
  Location : String

/-- `dmarc.DMARCPolicy` (only `Policy` is read by the rule engine). -/
structure DMARCPolicy where
  Policy : String
  SubdomainPolicy : String
  Percentage : Nat
  ReportFormat : String
  ReportInterval : Nat
  FailureReportingOption : String
  AggregateReportURI : List String
  ForensicReportURI : List String
  ADKIM : String
  ASPF : String
deriving DecidableEq

/-- Go `record.Tags[key] = value`. -/
def tagsSet (m : String → Option String) (k v : String) : String → Option String :=
  fun q => if q = k then some v else m q

/-- The loop state of `parseDMARCRecord`: the `Version` field, the `Valid`
flag and the `Tags` map built so far. -/
structure DMARCAcc where
  version : String
  valid : Bool
  tags : String → Option String

/-- One iteration of the `parseDMARCRecord` loop over a `;`-separated part. -/
def dmarcStep (st : DMARCAcc) (rawPart : String) : DMARCAcc :=
  let part := goTrim rawPart
  if part = "" then st
  else
    match splitFirstEq part with
    | none => { st with valid := false }
    | some kv =>
      let key := goTrim kv.1
      let value := goTrim kv.2
      { version := if key = "v" then value else st.version
        valid := if key = "v" ∧ value ≠ "DMARC1" then false else st.valid
        tags := tagsSet st.tags key value }

/-- `dmarc.parseDMARCRecord`. -/
def parseDMARCRecord (rawRecord location : String) : DMARCRecord :=
  let st := (goSplit rawRecord ';').foldl dmarcStep ⟨"", true, fun _ => none⟩
  { Raw := rawRecord
    Version := st.version
    Tags := st.tags
    Valid := if st.tags "p" = none then false else st.valid
    Location := location }

/-- `dmarc.LookupDMARC` over the TXT answer set for `_dmarc.<domain>` (each
entry the joined chunks of one TXT record); `none` covers the "no DMARC
record found" error return. -/
def lookupDMARC (answers : List String) (dmarcDomain : String) : Option DMARCRecord :=
  match answers.find? (fun txtValue => goStartsWith (goToLower txtValue) "v=dmarc1") with
  | some txtValue => some (parseDMARCRecord txtValue dmarcDomain)
  | none => none

/-- The well-formed `(key, value)` pairs contributed by a list of raw
`;`-separated parts: each part is trimmed, empty parts are skipped, parts
without `=` are skipped, keys and values are trimmed. -/
def partPairs (parts : List String) : List (String × String) :=
  parts.filterMap (fun rawPart =>
    let part := goTrim rawPart
    if part = "" then none
    else (splitFirstEq part).map (fun kv => (goTrim kv.1, goTrim kv.2)))

/-- Whether some part is non-empty after trimming but contains no `=`. -/
def partsMalformed (parts : List String) : Bool :=
  parts.any (fun rawPart =>
    let part := goTrim rawPart
    decide (part ≠ "") && (splitFirstEq part).isNone)

/-- Whether some well-formed pair is a `v` tag with a value other than `DMARC1`. -/
def partsBadV (parts : List String) : Bool :=
  (partPairs parts).any (fun kv => decide (kv.1 = "v") && decide (kv.2 ≠ "DMARC1"))

/-- The well-formed tag pairs of a raw DMARC record, in order. -/
def segPairs (raw : String) : List (String × String) := partPairs (goSplit raw ';')

/-- Some non-empty `;`-separated segment of the raw record lacks `=`. -/
def hasMalformedSeg (raw : String) : Bool := partsMalformed (goSplit raw ';')

/-- Some `v` tag of the raw record carries a value other than `DMARC1`. -/
def hasBadVersionTag (raw : String) : Bool := partsBadV (goSplit raw ';')

/-- The raw record carries a `p` tag in some well-formed segment. -/
def hasPTag (raw : String) : Bool := (segPairs raw).any (fun kv => decide (kv.1 = "p"))

/-! ## MX parser (internal/mx) -/

/-- `mx.Record` (its Go field `Type` is `Rtype` here). -/
structure Record where
  Rtype : String
  Value : String
deriving DecidableEq

/-- `mx.MXRecord`; `Priority` is a `uint16` in Go, always in range here. -/
structure MXRecord where
  Host : String
  Priority : Nat
  Records : List Record
deriving DecidableEq

/-- Insertion step of `sortMX`. -/
def insertMX (a : MXRecord) : List MXRecord → List MXRecord
  | [] => [a]
  | b :: bs => if a.Priority ≤ b.Priority then a :: b :: bs else b :: insertMX a bs

/-- Models the `sort.Slice(records, ...Priority < ...Priority)` calls: a sorted
(ascending by `Priority`) permutation of the input. -/
def sortMX : List MXRecord → List MXRecord
  | [] => []
  | a :: as => insertMX a (sortMX as)

/-- `mx.LookupMX` over an abstract resolver: `ans` is the MX answer section
(`.error` for a transport failure or a non-success response code, otherwise
the `(target, preference)` pairs of the `dns.MX` answers in order) and
`resolve` models `resolveMXHost` for each stripped host. A failed host
resolution leaves that host's `Records` empty; the final list is sorted by
priority. -/
def lookupMX (ans : Except String (List (String × Nat)))
    (resolve : String → Except String (List Record)) : Except String (List MXRecord) :=
  match ans with
  | .error e => .error e
  | .ok mxAns =>
    .ok (sortMX (mxAns.map (fun a =>
      let host := goTrimSfx a.1 "."
      { Host := host
        Priority := a.2
        Records := match resolve host with
                   | .ok resolvedRecords => resolvedRecords
                   | .error _ => [] })))

/-- The fallback path of `mx.LookupMXWithFallback`: the system resolver's
`net.LookupMX` result (`(host, pref)` pairs, or an error) is synthesized into
`MXRecord`s without address resolution and sorted by priority. -/
def mxFallback (sys : Except String (List (String × Nat))) : Except String (List MXRecord) :=
  match sys with
  | .error e => .error ("MX lookup failed: " ++ e)
  | .ok mxs =>
    .ok (sortMX (mxs.map (fun a =>
      { Host := goTrimSfx a.1 ".", Priority := a.2, Records := [] })))

/-- `mx.LookupMXWithFallback`: the primary `LookupMX` result when it is a
success with a non-empty list, otherwise the system-resolver fallback. -/
def lookupMXWithFallback (ans : Except String (List (String × Nat)))
    (resolve : String → Except String (List Record))
    (sys : Except String (List (String × Nat))) : Except String (List MXRecord) :=
  match lookupMX ans resolve with
  | .ok records => if records.length > 0 then .ok records else mxFallback sys
  | .error _ => mxFallback sys

/-! ## IP classification (internal/rules, isPrivateIP and net.ParseIP) -/

/-- Decimal value of a digit list. -/
def digitsToNat (cs : List Char) : Nat :=
  cs.foldl (fun n c => n * 10 + (c.toNat - '0'.toNat)) 0

/-- One dotted-decimal IPv4 field: 1-3 digits, no leading zero, value at
most 255 (the stdlib `net.ParseIP` field rules). -/
def parseByte (s : String) : Option Nat :=
  let cs := s.data
  if cs ≠ [] ∧ cs.length ≤ 3 ∧ cs.all Char.isDigit ∧ (cs.length = 1 ∨ cs.head? ≠ some '0') then
    if digitsToNat cs ≤ 255 then some (digitsToNat cs) else none
  else none

/-- The 12-byte prefix Go's `net` package puts before the four IPv4 bytes:
`net.ParseIP` stores every IPv4 address in the 16-byte IPv4-in-IPv6 mapped
form (`v4InV6Prefix`). -/
def v4InV6Pre : List Nat := List.replicate 10 0 ++ [255, 255]

/-- Models Go `net.IP.To4`: a 4-byte slice stays itself, a 16-byte
IPv4-in-IPv6 mapped slice yields its last four bytes, anything else is
`nil` (`none`). -/
def ipTo4 (ip : List Nat) : Option (List Nat) :=
  if ip.length = 4 then some ip
  else if ip.length = 16 ∧ ip.take 12 = v4InV6Pre then some (ip.drop 12)
  else none

/-- Dotted-quad IPv4 parsing: four fields, stored - as `net.ParseIP` does -
in the 16-byte IPv4-in-IPv6 mapped form. -/
def parseIPv4 (s : String) : Option (List Nat) :=
  match (goSplit s '.').mapM parseByte with
  | some bs => if bs.length = 4 then some (v4InV6Pre ++ bs) else none
  | none => none

/-- Hexadecimal digit value. -/
def hexVal (c : Char) : Option Nat :=
  if c.isDigit then some (c.toNat - '0'.toNat)
  else if 'a' ≤ c ∧ c ≤ 'f' then some (c.toNat - 'a'.toNat + 10)
  else if 'A' ≤ c ∧ c ≤ 'F' then some (c.toNat - 'A'.toNat + 10)
  else none

/-- One 16-bit IPv6 group: 1-4 hex digits. -/
def parseV6Group (s : String) : Option Nat :=
  if s.data ≠ [] ∧ s.data.length ≤ 4 then
    match s.data.mapM hexVal with
    | some ds => some (ds.foldl (fun n d => n * 16 + d) 0)
    | none => none
  else none

/-- 16-bit groups to bytes, big-endian. -/
def groupBytes (gs : List Nat) : List Nat :=
  gs.foldr (fun g acc => (g / 256) :: (g % 256) :: acc) []

/-- Splits at the first occurrence of two consecutive colons, or `none`. -/
def break2c : List Char → Option (List Char × List Char)
  | [] => none
  | [_] => none
  | a :: b :: rest =>
    if a = ':' ∧ b = ':' then some ([], rest)
    else (break2c (b :: rest)).map (fun p => (a :: p.1, p.2))

/-- Hex-notation IPv6 parsing with at most one `::` compression, 16 bytes.
Models the stdlib `net.ParseIP` IPv6 branch for the plain hex textual forms
(IPv4-embedded IPv6 text is not used by this code's inputs). -/
def parseIPv6 (s : String) : Option (List Nat) :=
  match break2c s.data with
  | none =>
    match (goSplit s ':').mapM parseV6Group with
    | some gs => if gs.length = 8 then some (groupBytes gs) else none
    | none => none
  | some pq =>
    if break2c pq.2 ≠ none then none
    else
      match (if pq.1 = [] then some [] else (goSplit ⟨pq.1⟩ ':').mapM parseV6Group),
            (if pq.2 = [] then some [] else (goSplit ⟨pq.2⟩ ':').mapM parseV6Group) with
      | some g1, some g2 =>
        if g1.length + g2.length < 8 then
          some (groupBytes (g1 ++ List.replicate (8 - g1.length - g2.length) 0 ++ g2))
        else none
      | _, _ => none

/-- Models the stdlib `net.ParseIP` for the textual forms reaching
`isPrivateIP`: always a 16-byte list - the IPv4-in-IPv6 mapped form for
dotted-quad IPv4, the plain 16 bytes for hex IPv6; `none` when
unparseable. -/
def goParseIP (s : String) : Option (List Nat) :=
  if s.data.contains '.' then parseIPv4 s else parseIPv6 s

/-- Models `bytes.Compare` on byte lists. -/
def bytesCmp : List Nat → List Nat → Ordering
  | [], [] => .eq
  | [], _ :: _ => .lt
  | _ :: _, [] => .gt
  | a :: as, b :: bs => if a < b then .lt else if b < a then .gt else bytesCmp as bs

/-- The fixed private ranges of `rules.isPrivateIP`: 10/8, 172.16/12,
192.168/16, 127/8, 169.254/16, fc00::/7, fe80::/10. Each bound is the
`net.ParseIP` value, so the dotted-quad bounds are 16-byte IPv4-in-IPv6
mapped slices, never 4-byte ones. -/
def privateRanges : List (List Nat × List Nat) :=
  [(v4InV6Pre ++ [10, 0, 0, 0], v4InV6Pre ++ [10, 255, 255, 255]),
   (v4InV6Pre ++ [172, 16, 0, 0], v4InV6Pre ++ [172, 31, 255, 255]),
   (v4InV6Pre ++ [192, 168, 0, 0], v4InV6Pre ++ [192, 168, 255, 255]),
   (v4InV6Pre ++ [127, 0, 0, 0], v4InV6Pre ++ [127, 255, 255, 255]),
   (v4InV6Pre ++ [169, 254, 0, 0], v4InV6Pre ++ [169, 254, 255, 255]),
   (252 :: List.replicate 15 0, 253 :: List.replicate 15 255),
   (254 :: 128 :: List.replicate 14 0, 254 :: 191 :: List.replicate 14 255)]

/-- `rules.isPrivateIP`: the candidate is replaced by its `To4` view when it
has one (an IPv4 address becomes 4 bytes); ranges whose `To4`-family differs
from the candidate's are skipped; the inclusive sandwich then runs
`bytes.Compare` on the raw byte slices, the bounds still being the 16-byte
`net.ParseIP` values. For an IPv4 candidate the IPv4 ranges pass the family
check (both sides have a `To4` view) but the 4-vs-16-byte lexicographic
comparison can never land between the bounds, so - exactly as in the Go
code - no IPv4 address is ever classified private; only the IPv6 ranges can
fire. -/
def isPrivateIP (ip0 : List Nat) : Bool :=
  let ip := match ipTo4 ip0 with
            | some ip4 => ip4
            | none => ip0
  privateRanges.any (fun r =>
    if (ipTo4 ip).isNone = (ipTo4 r.1).isNone then
      decide (bytesCmp ip r.1 ≠ Ordering.lt) && decide (bytesCmp ip r.2 ≠ Ordering.gt)
    else false)

/-! ## Domain profile and rule engine (internal/dns, internal/rules) -/

/-- `dnssec.DNSSECInfo` (the rule engine reads `Enabled`); the timestamp and
error-text fields play no role in any claim and are omitted. -/
structure DNSSECInfo where
  Domain : String
  Enabled : Bool
  HasDNSKEY : Bool
  HasDS : Bool
  KeyCount : Nat
deriving DecidableEq

/-- `dkim.DKIMInfo`. -/
structure DKIMInfo where
  Domain : String
  HasDomainKey : Bool
  HasSelectors : Bool
  Selectors : List String
  ResponseCode : String
deriving DecidableEq

/-- `dns.DomainInfo`, the profile the rule engine consumes (the query
timestamp and the per-category error map are not read by any rule). The
embedded `rules.EnhancedDomainInfo` wrapper adds only the result list, which
the rule functions below return instead of mutating. -/
structure DomainInfo where
  Domain : String
  MXRecords : List MXRecord
  SPFRecord : Option SPFRecord
  DMARCRecord : Option DMARCRecord
  DMARCPolicy : DMARCPolicy
  DNSSECInfo : Option DNSSECInfo
  DKIMInfo : Option DKIMInfo

/-- `rules.RuleResult`. -/
structure RuleResult where
  RuleID : Nat
  Description : String
  Status : String
  Message : String
deriving DecidableEq

/-- The term scan of `CheckSPFPtrUsage`: true as soon as a term has prefix
`ptr` or equals `ptr` (the loop returns at the first hit). -/
def ptrScan : List String → Bool
  | [] => false
  | term :: rest =>
    if goStartsWith term "ptr" ∨ term = "ptr" then true else ptrScan rest

/-- `rules.CheckSPFPtrUsage` (rule 1); returns the findings it appends. -/
def CheckSPFPtrUsage (info : DomainInfo) : List RuleResult :=
  match info.SPFRecord with
  | none => []
  | some spf =>
    if ptrScan spf.Terms then
      [{ RuleID := 1
         Description := "SPF record uses deprecated ptr: mechanism"
         Status := "warning"
         Message := "The ptr: mechanism in SPF records is deprecated due to performance issues and should be avoided" }]
    else
      [{ RuleID := 1
         Description := "SPF record doesn\x27t use deprecated ptr: mechanism"
         Status := "pass"
         Message := "No ptr: mechanism found in SPF record" }]

/-- The include counter of `CheckSPFIncludeLimit`. -/
def includeCountOf (terms : List String) : Nat :=
  terms.foldl (fun n term => if goStartsWith term "include:" then n + 1 else n) 0

/-- `rules.CheckSPFIncludeLimit` (rule 2). -/
def CheckSPFIncludeLimit (info : DomainInfo) : List RuleResult :=
  match info.SPFRecord with
  | none => []
  | some spf =>
    let includeCount := includeCountOf spf.Terms
    if includeCount > 10 then
      [{ RuleID := 2
         Description := "SPF record has too many include mechanisms"
         Status := "fail"
         Message := "SPF record contains more than 10 include mechanisms. Consider using SPF flattening to reduce lookup complexity." }]
    else
      [{ RuleID := 2
         Description := "SPF record include count is acceptable"
         Status := "pass"
         Message := "SPF record contains " ++ toString includeCount ++ " include mechanisms (limit is 10)" }]

/-- The term scan of `CheckSPFAllMechanism`: the loop breaks at the first
`all`-style term, `some true` for `hasProperAll` (`-all`/`~all`), `some false`
for `hasPositiveAll` (`+all`/`all`), `none` when no such term occurs. -/
def spfAllScan : List String → Option Bool
  | [] => none
  | t :: rest =>
    let term := goTrim t
    if term = "-all" ∨ term = "~all" then some true
    else if term = "+all" ∨ term = "all" then some false
    else spfAllScan rest

/-- `rules.CheckSPFAllMechanism` (rule 3). -/
def CheckSPFAllMechanism (info : DomainInfo) : List RuleResult :=
  match info.SPFRecord with
  | none => []
  | some spf =>
    match spfAllScan spf.Terms with
    | some false =>
      [{ RuleID := 3
         Description := "SPF record uses +all"
         Status := "fail"
         Message := "SPF record uses +all which allows any server to send mail for your domain. Use -all or ~all instead." }]
    | some true =>
      [{ RuleID := 3
         Description := "SPF record uses proper all qualifier"
         Status := "pass"
         Message := "SPF record properly uses -all or ~all to restrict unauthorized senders." }]
    | none =>
      [{ RuleID := 3
         Description := "SPF record missing all mechanism"
         Status := "fail"
         Message := "SPF record doesn\x27t have an \x27all\x27 mechanism. Add -all or ~all at the end of your SPF record." }]

/-- `rules.CheckSPFExists` (rule 6). -/
def CheckSPFExists (info : DomainInfo) : List RuleResult :=
  match info.SPFRecord with
  | none =>
    [{ RuleID := 6
       Description := "SPF record existence"
       Status := "fail"
       Message := "No SPF record was found for this domain. SPF is important for preventing email spoofing. Add an SPF record to specify which servers are authorized to send email for your domain." }]
  | some _ =>
    [{ RuleID := 6
       Description := "SPF record existence"
       Status := "pass"
       Message := "SPF record exists for this domain." }]

/-- `rules.CheckDMARCPolicy` (rule 4). -/
def CheckDMARCPolicy (info : DomainInfo) : List RuleResult :=
  match info.DMARCRecord with
  | none => []
  | some _ =>
    let policyValue := info.DMARCPolicy.Policy
    if policyValue = "reject" then
      [{ RuleID := 4
         Description := "DMARC policy set to reject"
         Status := "pass"
         Message := "DMARC policy is set to \x27reject\x27, which provides the strongest protection against email spoofing." }]
    else if policyValue = "quarantine" then
      [{ RuleID := 4
         Description := "DMARC policy set to quarantine"
         Status := "warn"
         Message := "DMARC policy is set to \x27quarantine\x27. Consider upgrading to \x27reject\x27 for stronger protection once you\x27ve verified legitimate emails are passing authentication." }]
    else if policyValue = "none" then
      [{ RuleID := 4
         Description := "DMARC policy set to none"
         Status := "fail"
         Message := "DMARC policy is set to \x27none\x27, which only monitors but doesn\x27t protect against spoofing. Consider upgrading to \x27quarantine\x27 or ideally \x27reject\x27." }]
    else
      [{ RuleID := 4
         Description := "DMARC policy not found or invalid"
         Status := "fail"
         Message := "No valid DMARC policy (p tag) was found. Ensure your DMARC record includes a valid p=reject, p=quarantine, or p=none tag." }]

/-- `rules.CheckDMARCExists` (rule 5). -/
def CheckDMARCExists (info : DomainInfo) : List RuleResult :=
  match info.DMARCRecord with
  | none =>
    [{ RuleID := 5
       Description := "DMARC record existence"
       Status := "fail"
       Message := "No DMARC record was found for this domain. DMARC is essential for preventing email spoofing. Add a DMARC record with p=reject or at least p=quarantine." }]
  | some _ =>
    [{ RuleID := 5
       Description := "DMARC record existence"
       Status := "pass"
       Message := "DMARC record exists for this domain." }]

/-- `rules.CheckDKIMExists` (rule 7). -/
def CheckDKIMExists (info : DomainInfo) : List RuleResult :=
  match info.DKIMInfo with
  | none =>
    [{ RuleID := 7
       Description := "DKIM record existence"
       Status := "info"
       Message := "DKIM status could not be determined. DKIM uses selectors that vary by email provider. Ensure DKIM is configured with your email service provider." }]
  | some dkim =>
    if dkim.HasDomainKey ∧ dkim.ResponseCode = "NOERROR" then
      if dkim.HasSelectors then
        [{ RuleID := 7
           Description := "DKIM record existence"
           Status := "pass"
           Message := "DKIM records found for this domain with selectors: " ++ goJoin dkim.Selectors ", " }]
      else
        [{ RuleID := 7
           Description := "DKIM record existence"
           Status := "warn"
           Message := "Domain has _domainkey record but no common selectors were found. Ensure DKIM is properly configured with your email provider." }]
    else
      [{ RuleID := 7
         Description := "DKIM record existence"
         Status := "fail"
         Message := "No DKIM _domainkey record was found. DKIM helps prevent email spoofing. Configure DKIM with your email service provider." }]

/-- `rules.CheckDNSSECEnabled` (rule 8). -/
def CheckDNSSECEnabled (info : DomainInfo) : List RuleResult :=
  match info.DNSSECInfo with
  | none =>
    [{ RuleID := 8
       Description := "DNSSEC enabled"
       Status := "info"
       Message := "DNSSEC status could not be determined. DNSSEC adds an additional layer of security to DNS lookups." }]
  | some dnssec =>
    if dnssec.Enabled then
      [{ RuleID := 8
         Description := "DNSSEC enabled"
         Status := "pass"
         Message := "DNSSEC is enabled for this domain, providing additional security for DNS lookups." }]
    else
      [{ RuleID := 8
         Description := "DNSSEC enabled"
         Status := "warn"
         Message := "DNSSEC is not enabled for this domain. Consider enabling DNSSEC to protect against DNS spoofing attacks." }]

/-- `rules.CheckMXExists` (rule 9). -/
def CheckMXExists (info : DomainInfo) : List RuleResult :=
  if info.MXRecords.length = 0 then
    [{ RuleID := 9
       Description := "MX record existence"
       Status := "warn"
       Message := "No MX records found. If this domain is used for email, add MX records to specify mail servers." }]
  else
    [{ RuleID := 9
       Description := "MX record existence"
       Status := "pass"
       Message := "Found " ++ toString info.MXRecords.length ++ " MX records for this domain." }]

/-- `rules.CheckMXHasIPs` (rule 10). -/
def CheckMXHasIPs (info : DomainInfo) : List RuleResult :=
  if info.MXRecords.length = 0 then []
  else
    let badMXHosts := info.MXRecords.filterMap (fun record =>
      if record.Records.length = 0 then some record.Host else none)
    if badMXHosts.length > 0 then
      [{ RuleID := 10
         Description := "MX records have IP addresses"
         Status := "warn"
         Message := "The following MX hosts could not be resolved to IP addresses: " ++ goJoin badMXHosts ", " }]
    else
      [{ RuleID := 10
         Description := "MX records have IP addresses"
         Status := "pass"
         Message := "All MX records resolve to valid IP addresses." }]

/-- `rules.CheckMXHasIPv6` (rule 11); the inner loop with break is the `any`. -/
def CheckMXHasIPv6 (info : DomainInfo) : List RuleResult :=
  if info.MXRecords.length = 0 then []
  else
    let badMXHosts := info.MXRecords.filterMap (fun record =>
      if record.Records.any (fun r => r.Rtype == "AAAA") then none else some record.Host)
    if badMXHosts.length > 0 then
      [{ RuleID := 11
         Description := "MX records have IPv6 addresses"
         Status := "warn"
         Message := "The following MX hosts could not be resolved to IPv6 addresses: " ++ goJoin badMXHosts ", " }]
    else
      [{ RuleID := 11
         Description := "MX records have IPv6 addresses"
         Status := "pass"
         Message := "All MX records resolve to IPv6 addresses." }]

/-- `rules.CheckMXRedundancy` (rule 12). -/
def CheckMXRedundancy (info : DomainInfo) : List RuleResult :=
  if info.MXRecords.length = 0 then []
  else if info.MXRecords.length = 1 then
    [{ RuleID := 12
       Description := "MX record redundancy"
       Status := "warn"
       Message := "Only one MX record found. For better email reliability, consider adding at least one backup MX server." }]
  else
    [{ RuleID := 12
       Description := "MX record redundancy"
       Status := "pass"
       Message := "Found " ++ toString info.MXRecords.length ++ " MX records, which provides redundancy for email delivery." }]

/-- `rules.CheckMXTooMany` (rule 13, threshold `maxRecommendedMX = 5`). -/
def CheckMXTooMany (info : DomainInfo) : List RuleResult :=
  if info.MXRecords.length = 0 then []
  else if info.MXRecords.length > 5 then
    [{ RuleID := 13
       Description := "MX record count"
       Status := "warn"
       Message := "Found " ++ toString info.MXRecords.length ++ " MX records, which is more than the recommended maximum of 5. Too many MX records may indicate a misconfiguration." }]
  else
    [{ RuleID := 13
       Description := "MX record count"
       Status := "pass"
       Message := "Found " ++ toString info.MXRecords.length ++ " MX records, which is within the recommended range (1-5)." }]

/-- The fixed `localhostPatterns` of `CheckMXLocalhost`. -/
def localhostPatterns : List String := ["localhost", "127.0.0.1", "::1", "0.0.0.0"]

/-- Whether `CheckMXLocalhost` flags one MX: lowered host name equal to a
pattern, or (as the Go loops with their breaks compute) some resolved A/AAAA
value equal to a pattern. -/
def isLocalhostMX (mx : MXRecord) : Bool :=
  localhostPatterns.any (fun pattern => goToLower mx.Host == pattern) ||
  mx.Records.any (fun record =>
    (record.Rtype == "A" || record.Rtype == "AAAA") &&
    localhostPatterns.any (fun pattern => record.Value == pattern))

/-- `rules.CheckMXLocalhost` (rule 14). -/
def CheckMXLocalhost (info : DomainInfo) : List RuleResult :=
  if info.MXRecords.length = 0 then []
  else
    let badMXs := info.MXRecords.filterMap (fun mx =>
      if isLocalhostMX mx then some mx.Host else none)
    if badMXs.length > 0 then
      [{ RuleID := 14
         Description := "MX localhost check"
         Status := "fail"
         Message := "Found " ++ toString badMXs.length ++ " MX records pointing to localhost or loopback addresses: " ++ goJoin badMXs ", " ++ ". This is a misconfiguration that will prevent email delivery." }]
    else
      [{ RuleID := 14
         Description := "MX localhost check"
         Status := "pass"
         Message := "No MX records pointing to localhost found." }]

/-- The private addresses collected for one MX by `CheckMXPrivateIPs`: the
original `Value` strings of its A/AAAA records that parse and fall in a
private range. -/
def privateIPsOf (records : List Record) : List String :=
  records.filterMap (fun record =>
    if record.Rtype ≠ "A" ∧ record.Rtype ≠ "AAAA" then none
    else
      match goParseIP record.Value with
      | none => none
      | some parsedIP => if isPrivateIP parsedIP then some record.Value else none)

/-- Go `mxWithPrivateIPs[host] = ips` on the association-list view of the
map: replace the binding in place when the key exists, append otherwise. -/
def assocUpd (m : List (String × List String)) (k : String) (v : List String) :
    List (String × List String) :=
  if m.any (fun e => e.1 == k) then m.map (fun e => if e.1 = k then (k, v) else e)
  else m ++ [(k, v)]

/-- The content of the `mxWithPrivateIPs` map built by `CheckMXPrivateIPs`,
as an insertion-ordered association list: hosts with an empty `Records` list
are skipped, hosts whose `privateIPs` list is empty are skipped. -/
def mxPrivateEntries (mxs : List MXRecord) : List (String × List String) :=
  mxs.foldl (fun m mx =>
    if mx.Records.length = 0 then m
    else
      let privateIPs := privateIPsOf mx.Records
      if privateIPs.length > 0 then assocUpd m mx.Host privateIPs else m) []

/-- `rules.CheckMXPrivateIPs` (rule 15). `ord` models the Go runtime's
iteration order over the `mxWithPrivateIPs` map in the message-formatting
`range` loop: the runtime presents the entries in some unspecified order, so
any permutation of the association list is a possible run. -/
def CheckMXPrivateIPs (ord : List (String × List String) → List (String × List String))
    (info : DomainInfo) : List RuleResult :=
  if info.MXRecords.length = 0 then []
  else
    let entries := mxPrivateEntries info.MXRecords
    if entries.length > 0 then
      let details := (ord entries).map (fun e =>
        e.1 ++ " resolves to private IPs: " ++ goJoin e.2 ", ")
      [{ RuleID := 15
         Description := "MX private IP check"
         Status := "fail"
         Message := "Found " ++ toString entries.length ++ " MX records resolving to private IP addresses. " ++ goJoin details "; " }]
    else
      [{ RuleID := 15
         Description := "MX private IP check"
         Status := "pass"
         Message := "No MX records resolving to private IP addresses found." }]

/-- `rules.ApplyAllRules`: the fixed ordered pass; each rule appends its
findings to the shared result slice, so the full run is the concatenation in
program order. `ord` is threaded to `CheckMXPrivateIPs` (see there). -/
def ApplyAllRules (ord : List (String × List String) → List (String × List String))
    (info : DomainInfo) : List RuleResult :=
  CheckSPFPtrUsage info ++ CheckSPFIncludeLimit info ++ CheckSPFAllMechanism info ++
  CheckSPFExists info ++
  CheckDMARCPolicy info ++ CheckDMARCExists info ++
  CheckDKIMExists info ++
  CheckDNSSECEnabled info ++
  CheckMXExists info ++ CheckMXHasIPs info ++ CheckMXHasIPv6 info ++
  CheckMXRedundancy info ++ CheckMXTooMany info ++ CheckMXLocalhost info ++
  CheckMXPrivateIPs ord info

/-- The value of the last well-formed pair with key `k`, if any. -/
def lastTagValue (ps : List (String × String)) (k : String) : Option String :=
  ((ps.filter (fun kv => kv.1 == k)).map Prod.snd).getLast?

/-! ## Concrete inputs used in counterexamples and witnesses -/

/-- The Go zero value of `DMARCPolicy`, as a profile carries it when no DMARC
record was found. -/
def emptyPolicy : DMARCPolicy := ⟨"", "", 0, "", 0, "", [], [], "", ""⟩

/-- A profile with every category missing and no MX records. -/
def baseInfo : DomainInfo :=
  { Domain := "example.com", MXRecords := [], SPFRecord := none, DMARCRecord := none
    DMARCPolicy := emptyPolicy, DNSSECInfo := none, DKIMInfo := none }

/-- A profile whose SPF record has the given terms. -/
def spfInfo (terms : List String) : DomainInfo :=
  { baseInfo with SPFRecord := some { Raw := "", Version := "spf1", Terms := terms } }

/-- Eleven `include:` terms. -/
def elevenIncludes : List String :=
  ["include:d1.example", "include:d2.example", "include:d3.example", "include:d4.example",
   "include:d5.example", "include:d6.example", "include:d7.example", "include:d8.example",
   "include:d9.example", "include:d10.example", "include:d11.example"]

/-- A profile with two MX hosts, each resolving to one private IPv6 address
(a unique-local and a link-local AAAA record). IPv6 is the family that can
actually trigger rule 15: `isPrivateIP` compares the `To4`-normalized
candidate against the 16-byte `net.ParseIP` bounds, so IPv4 candidates never
match any range. -/
def privateMXInfo : DomainInfo :=
  { baseInfo with
    MXRecords := [{ Host := "mx-a.example.com", Priority := 10,
                    Records := [{ Rtype := "AAAA", Value := "fd00::1" }] },
                  { Host := "mx-b.example.com", Priority := 20,
                    Records := [{ Rtype := "AAAA", Value := "fe80::2" }] }] }

/-- The TXT answer set refuting claim C5 as universally stated: it contains a
`v=dmarc1`-prefixed record without a `p` tag (the second), but the lookup
parses the first matching record, which has one. -/
def dmarcCexAnswers : List String := ["v=DMARC1; p=none", "v=DMARC1"]

/-! ## Helper lemmas -/

theorem mem_insertMX {x a : MXRecord} {l : List MXRecord} :
    x ∈ insertMX a l ↔ x = a ∨ x ∈ l := by
  induction l with
  | nil => simp [insertMX]
  | cons b bs ih =>
    by_cases h : a.Priority ≤ b.Priority
    · simp [insertMX, h]
    · simp [insertMX, h, ih]
      tauto

theorem mem_sortMX {x : MXRecord} {l : List MXRecord} :
    x ∈ sortMX l ↔ x ∈ l := by
  induction l with
  | nil => simp [sortMX]
  | cons a as ih => simp [sortMX, mem_insertMX, ih]

theorem pairwise_insertMX {a : MXRecord} {l : List MXRecord}
    (h : l.Pairwise (fun x y => x.Priority ≤ y.Priority)) :
    (insertMX a l).Pairwise (fun x y => x.Priority ≤ y.Priority) := by
  induction l with
  | nil => simp [insertMX]
  | cons b bs ih =>
    rcases List.pairwise_cons.mp h with ⟨hb, hbs⟩
    by_cases hab : a.Priority ≤ b.Priority
    · rw [insertMX, if_pos hab]
      refine List.pairwise_cons.mpr ⟨?_, h⟩
      intro y hy
      rcases List.mem_cons.mp hy with rfl | hy'
      · exact hab
      · exact le_trans hab (hb y hy')
    · rw [insertMX, if_neg hab]
      refine List.pairwise_cons.mpr ⟨?_, ih hbs⟩
      intro y hy
      rcases mem_insertMX.mp hy with rfl | hy'
      · exact le_of_not_le hab
      · exact hb y hy'

theorem pairwise_sortMX (l : List MXRecord) :
    (sortMX l).Pairwise (fun x y => x.Priority ≤ y.Priority) := by
  induction l with
  | nil => simp [sortMX]
  | cons a as ih => exact pairwise_insertMX ih

theorem mxFallback_ok_shape {sys : Except String (List (String × Nat))}
    {l : List MXRecord} (h : mxFallback sys = .ok l) :
    (∀ r ∈ l, r.Records = []) ∧ l.Pairwise (fun x y => x.Priority ≤ y.Priority) := by
  cases sys with
  | error e => simp [mxFallback] at h
  | ok mxs =>
    simp only [mxFallback, Except.ok.injEq] at h
    subst h
    refine ⟨?_, pairwise_sortMX _⟩
    intro r hr
    rcases List.mem_map.mp (mem_sortMX.mp hr) with ⟨a, _, rfl⟩
    rfl

theorem dmarc_foldl_tags (parts : List String) (st : DMARCAcc) :
    (parts.foldl dmarcStep st).tags =
      (partPairs parts).foldl (fun m kv => tagsSet m kv.1 kv.2) st.tags := by
  induction parts generalizing st with
  | nil => simp [partPairs]
  | cons rp ps ih =>
    rw [List.foldl_cons]
    by_cases hemp : goTrim rp = ""
    · have h2 : partPairs (rp :: ps) = partPairs ps := by
        simp [partPairs, hemp]
      have hstep : dmarcStep st rp = st := by simp [dmarcStep, hemp]
      rw [h2, hstep]
      exact ih st
    · cases hsf : splitFirstEq (goTrim rp) with
      | none =>
        have h2 : partPairs (rp :: ps) = partPairs ps := by
          simp [partPairs, hemp, hsf]
        have hstep : dmarcStep st rp = { st with valid := false } := by
          simp [dmarcStep, hemp, hsf]
        rw [h2, hstep, ih]
      | some kv =>
        have h2 : partPairs (rp :: ps) = (goTrim kv.1, goTrim kv.2) :: partPairs ps := by
          simp [partPairs, hemp, hsf]
        have hstep : (dmarcStep st rp).tags = tagsSet st.tags (goTrim kv.1) (goTrim kv.2) := by
          simp [dmarcStep, hemp, hsf]
        rw [h2, List.foldl_cons, ih, hstep]

theorem dmarc_foldl_valid (parts : List String) (st : DMARCAcc) :
    (parts.foldl dmarcStep st).valid = true ↔
      (st.valid = true ∧ partsMalformed parts = false ∧ partsBadV parts = false) := by
  induction parts generalizing st with
  | nil => simp [partsMalformed, partsBadV, partPairs]
  | cons rp ps ih =>
    rw [List.foldl_cons]
    by_cases hemp : goTrim rp = ""
    · have h2 : partPairs (rp :: ps) = partPairs ps := by
        simp [partPairs, hemp]
      have h1 : partsMalformed (rp :: ps) = partsMalformed ps := by
        simp [partsMalformed, hemp]
      have h3 : partsBadV (rp :: ps) = partsBadV ps := by
        rw [partsBadV, h2, partsBadV]
      have hstep : dmarcStep st rp = st := by simp [dmarcStep, hemp]
      rw [h1, h3, hstep]
      exact ih st
    · cases hsf : splitFirstEq (goTrim rp) with
      | none =>
        have h1 : partsMalformed (rp :: ps) = true := by
          simp [partsMalformed, hemp, hsf]
        have hstep : dmarcStep st rp = { st with valid := false } := by
          simp [dmarcStep, hemp, hsf]
        rw [h1, hstep, ih]
        simp
      | some kv =>
        have h2 : partPairs (rp :: ps) = (goTrim kv.1, goTrim kv.2) :: partPairs ps := by
          simp [partPairs, hemp, hsf]
        have h1 : partsMalformed (rp :: ps) = partsMalformed ps := by
          simp [partsMalformed, hemp, hsf]
        have h3 : partsBadV (rp :: ps) =
            ((decide (goTrim kv.1 = "v") && decide (goTrim kv.2 ≠ "DMARC1")) || partsBadV ps) := by
          rw [partsBadV, h2, List.any_cons, partsBadV]
        have hstep : (dmarcStep st rp).valid =
            (if goTrim kv.1 = "v" ∧ goTrim kv.2 ≠ "DMARC1" then false else st.valid) := by
          simp [dmarcStep, hemp, hsf]
        rw [h1, h3, ih, hstep]
        by_cases hv : goTrim kv.1 = "v" ∧ goTrim kv.2 ≠ "DMARC1"
        · simp [hv, hv.1, hv.2]
        · have hd : (decide (goTrim kv.1 = "v") && decide (goTrim kv.2 ≠ "DMARC1")) = false := by
            by_cases hA : goTrim kv.1 = "v"
            · have hB : ¬goTrim kv.2 ≠ "DMARC1" := fun hB => hv ⟨hA, hB⟩
              simp [hB]
            · simp [hA]
          simp [hv, hd]
          tauto

theorem getLast?_cons_eq {α : Type} (a : α) (l : List α) :
    (a :: l).getLast? = some (l.getLast?.getD a) := by
  induction l generalizing a with
  | nil => rfl
  | cons b bs ih => rw [List.getLast?_cons_cons, ih b]; rfl

theorem tags_foldl_apply (ps : List (String × String)) (m : String → Option String)
    (k : String) :
    (ps.foldl (fun acc kv => tagsSet acc kv.1 kv.2) m) k =
      (match lastTagValue ps k with
       | some v => some v
       | none => m k) := by
  induction ps generalizing m with
  | nil => simp [lastTagValue]
  | cons kv ps ih =>
    rw [List.foldl_cons, ih (tagsSet m kv.1 kv.2)]
    by_cases hk : kv.1 = k
    · have hlv : lastTagValue (kv :: ps) k = some ((lastTagValue ps k).getD kv.2) := by
        simp only [lastTagValue, List.filter_cons]
        simp [hk, getLast?_cons_eq]
      rw [hlv]
      cases hlast : lastTagValue ps k with
      | some v => simp [hlast]
      | none => simp [hlast, tagsSet, hk]
    · have hlv : lastTagValue (kv :: ps) k = lastTagValue ps k := by
        simp only [lastTagValue, List.filter_cons]
        simp [hk]
      rw [hlv]
      have hk' : ¬k = kv.1 := fun h => hk h.symm
      have hset : tagsSet m kv.1 kv.2 k = m k := by
        simp [tagsSet, hk']
      cases lastTagValue ps k with
      | some v => rfl
      | none => simpa using hset

theorem parse_tags_eq_last (raw loc k : String) :
    (parseDMARCRecord raw loc).Tags k = lastTagValue (segPairs raw) k := by
  have h1 : (parseDMARCRecord raw loc).Tags =
      ((goSplit raw ';').foldl dmarcStep ⟨"", true, fun _ => none⟩).tags := rfl
  rw [h1, dmarc_foldl_tags, tags_foldl_apply]
  rw [segPairs]
  cases lastTagValue (partPairs (goSplit raw ';')) k <;> rfl

theorem parse_valid_iff (raw loc : String) :
    (parseDMARCRecord raw loc).Valid = false ↔
      (hasMalformedSeg raw = true ∨ hasBadVersionTag raw = true ∨ hasPTag raw = false) := by
  have htags : (parseDMARCRecord raw loc).Tags "p" = lastTagValue (segPairs raw) "p" :=
    parse_tags_eq_last raw loc "p"
  have hp : (parseDMARCRecord raw loc).Tags "p" = none ↔ hasPTag raw = false := by
    rw [htags, lastTagValue, List.getLast?_eq_none_iff, List.map_eq_nil_iff,
      List.filter_eq_nil_iff, hasPTag]
    simp
  have hvalid : (parseDMARCRecord raw loc).Valid = false ↔
      ((parseDMARCRecord raw loc).Tags "p" = none ∨
        hasMalformedSeg raw = true ∨ hasBadVersionTag raw = true) := by
    have h2 : (parseDMARCRecord raw loc).Tags =
        ((goSplit raw ';').foldl dmarcStep ⟨"", true, fun _ => none⟩).tags := rfl
    have h3 : (parseDMARCRecord raw loc).Valid =
        (if ((goSplit raw ';').foldl dmarcStep ⟨"", true, fun _ => none⟩).tags "p" = none
         then false
         else ((goSplit raw ';').foldl dmarcStep ⟨"", true, fun _ => none⟩).valid) := rfl
    rw [h2, h3]
    by_cases hnone :
        ((goSplit raw ';').foldl dmarcStep ⟨"", true, fun _ => none⟩).tags "p" = none
    · simp [hnone]
    · rw [if_neg hnone]
      have hval := dmarc_foldl_valid (goSplit raw ';') ⟨"", true, fun _ => none⟩
      simp only [show (DMARCAcc.mk "" true fun _ => none).valid = true from rfl,
        true_and] at hval
      rw [hasMalformedSeg, hasBadVersionTag]
      constructor
      · intro hfalse
        by_cases hm : partsMalformed (goSplit raw ';') = true
        · exact Or.inr (Or.inl hm)
        · by_cases hb : partsBadV (goSplit raw ';') = true
          · exact Or.inr (Or.inr hb)
          · exfalso
            have hm' : partsMalformed (goSplit raw ';') = false := by
              cases hx : partsMalformed (goSplit raw ';')
              · rfl
              · exact absurd hx hm
            have hb' : partsBadV (goSplit raw ';') = false := by
              cases hx : partsBadV (goSplit raw ';')
              · rfl
              · exact absurd hx hb
            have htrue := hval.mpr ⟨hm', hb'⟩
            rw [htrue] at hfalse
            exact absurd hfalse (by decide)
      · rintro (h | h | h)
        · exact absurd h hnone
        · cases hvb : ((goSplit raw ';').foldl dmarcStep ⟨"", true, fun _ => none⟩).valid
          · rfl
          · rcases hval.mp hvb with ⟨hm, _⟩
            rw [h] at hm
            exact absurd hm (by decide)
        · cases hvb : ((goSplit raw ';').foldl dmarcStep ⟨"", true, fun _ => none⟩).valid
          · rfl
          · rcases hval.mp hvb with ⟨_, hb⟩
            rw [h] at hb
            exact absurd hb (by decide)
  rw [hvalid, hp]
  tauto

theorem parse_noP_invalid (raw loc : String)
    (h : (parseDMARCRecord raw loc).Tags "p" = none) :
    (parseDMARCRecord raw loc).Valid = false := by
  have h3 : (parseDMARCRecord raw loc).Valid =
      (if ((goSplit raw ';').foldl dmarcStep ⟨"", true, fun _ => none⟩).tags "p" = none
       then false
       else ((goSplit raw ';').foldl dmarcStep ⟨"", true, fun _ => none⟩).valid) := rfl
  have h2 : (parseDMARCRecord raw loc).Tags "p" =
      ((goSplit raw ';').foldl dmarcStep ⟨"", true, fun _ => none⟩).tags "p" := rfl
  rw [h2] at h
  rw [h3, if_pos h]

theorem spfAllScan_plusall (ts : List String)
    (hlast : ts.getLast? = some "+all")
    (hnone : ∀ t ∈ ts, goTrim t ≠ "-all" ∧ goTrim t ≠ "~all") :
    spfAllScan ts = some false := by
  induction ts with
  | nil => simp at hlast
  | cons t rest ih =>
    have ht := hnone t (List.mem_cons_self t rest)
    have hneg : ¬(goTrim t = "-all" ∨ goTrim t = "~all") := by
      rintro (h | h)
      · exact ht.1 h
      · exact ht.2 h
    by_cases hpos : goTrim t = "+all" ∨ goTrim t = "all"
    · simp [spfAllScan, hneg, hpos]
    · cases rest with
      | nil =>
        exfalso
        have : t = "+all" := by simpa using hlast
        exact hpos (Or.inl (by rw [this]; decide))
      | cons r rs =>
        have hlast' : (r :: rs).getLast? = some "+all" := by
          rw [← List.getLast?_cons_cons (a := t)]
          exact hlast
        have hnone' : ∀ u ∈ r :: rs, goTrim u ≠ "-all" ∧ goTrim u ≠ "~all" :=
          fun u hu => hnone u (List.mem_cons_of_mem t hu)
        simp [spfAllScan, hneg, hpos]
        exact ih hlast' hnone'

theorem ptrScan_true_iff (ts : List String) :
    ptrScan ts = true ↔ ∃ t ∈ ts, goStartsWith t "ptr" = true ∨ t = "ptr" := by
  induction ts with
  | nil => simp [ptrScan]
  | cons t rest ih =>
    by_cases h : goStartsWith t "ptr" = true ∨ t = "ptr"
    · simp [ptrScan, h]
    · simp [ptrScan, h, ih]

theorem fieldsAux_ne_nil (l : List Char) (cur : List Char) (h : cur ≠ []) :
    fieldsAux cur l ≠ [] := by
  induction l generalizing cur with
  | nil => simp [fieldsAux, h]
  | cons c cs ih =>
    by_cases hw : c.isWhitespace
    · simp [fieldsAux, hw, h]
    · rw [fieldsAux, if_neg (by simp [hw])]
      exact ih (c :: cur) (by simp)

/-! ## Claim theorems -/

/-- Claim C1, counterexample: the SPF term list `["-all", "+all"]` ends in
`+all`, yet rule 3 reports `pass`, not `fail`: the scan stops at the first
`-all`, so a preceding `-all` (or `~all`) overrides a final `+all`. -/
theorem spf_allrule_counterexample :
    (["-all", "+all"] : List String).getLast? = some "+all" ∧
    (CheckSPFAllMechanism (spfInfo ["-all", "+all"])).map RuleResult.Status = ["pass"] ∧
    ∀ r ∈ CheckSPFAllMechanism (spfInfo ["-all", "+all"]), r.Status ≠ "fail" := by
  decide

/-- Claim C1, amended: for every SPF record whose term list ends in `+all`
and in which no term trims to `-all` or `~all`, rule 3
(`CheckSPFAllMechanism`) yields the single finding with status `fail` for an
overly permissive record (terms equal to `+all` or `all` earlier in the list
only make the scan stop at them with the same result). -/
theorem spf_allrule_plusall_fail (info : DomainInfo) (spf : SPFRecord)
    (hrec : info.SPFRecord = some spf)
    (hlast : spf.Terms.getLast? = some "+all")
    (hnone : ∀ t ∈ spf.Terms, goTrim t ≠ "-all" ∧ goTrim t ≠ "~all") :
    CheckSPFAllMechanism info =
      [{ RuleID := 3
         Description := "SPF record uses +all"
         Status := "fail"
         Message := "SPF record uses +all which allows any server to send mail for your domain. Use -all or ~all instead." }] := by
  simp [CheckSPFAllMechanism, hrec, spfAllScan_plusall spf.Terms hlast hnone]

/-- Witness for the amended claim C1 at the concrete term list
`["include:example.com", "+all"]`. -/
theorem spf_allrule_plusall_fail_witness :
    CheckSPFAllMechanism (spfInfo ["include:example.com", "+all"]) =
      [{ RuleID := 3
         Description := "SPF record uses +all"
         Status := "fail"
         Message := "SPF record uses +all which allows any server to send mail for your domain. Use -all or ~all instead." }] :=
  spf_allrule_plusall_fail (spfInfo ["include:example.com", "+all"]) _ rfl (by decide)
    (by decide)

set_option maxRecDepth 16384 in
/-- Claim C6, counterexample: with exactly eleven `include:` terms rule 2
does yield status `fail`, but its message is the fixed flattening advice and
does not report the count 11 (the digits `11` do not occur in it): only the
`pass` branch interpolates the count. -/
theorem spf_include_message_counterexample :
    includeCountOf elevenIncludes = 11 ∧
    (CheckSPFIncludeLimit (spfInfo elevenIncludes)).map RuleResult.Status = ["fail"] ∧
    ∀ r ∈ CheckSPFIncludeLimit (spfInfo elevenIncludes),
      ¬("11".data <:+: r.Message.data) := by
  decide

/-- Claim C6, amended: for every non-nil SPF record, rule 2
(`CheckSPFIncludeLimit`) counts the `include:`-prefixed terms and yields
`fail` with a fixed message (which does not report the count) when the count
exceeds 10, and otherwise `pass` with a message reporting the count; in
particular with exactly 11 `include:` terms the status is `fail`. -/
theorem spf_include_limit_amended (info : DomainInfo) (spf : SPFRecord)
    (hrec : info.SPFRecord = some spf) :
    (CheckSPFIncludeLimit info =
      (if includeCountOf spf.Terms > 10 then
        [{ RuleID := 2
           Description := "SPF record has too many include mechanisms"
           Status := "fail"
           Message := "SPF record contains more than 10 include mechanisms. Consider using SPF flattening to reduce lookup complexity." }]
       else
        [{ RuleID := 2
           Description := "SPF record include count is acceptable"
           Status := "pass"
           Message := "SPF record contains " ++ toString (includeCountOf spf.Terms) ++ " include mechanisms (limit is 10)" }])) ∧
    (includeCountOf spf.Terms = 11 →
      (CheckSPFIncludeLimit info).map RuleResult.Status = ["fail"]) := by
  constructor
  · rw [CheckSPFIncludeLimit, hrec]
  · intro h11
    simp [CheckSPFIncludeLimit, hrec, h11]

/-- Witness for the amended claim C6: at one `include:` term the rule passes
and the message reports the count 1; the 11-term `fail` conjunct is
exercised through the same theorem at `elevenIncludes`. -/
theorem spf_include_limit_amended_witness :
    CheckSPFIncludeLimit (spfInfo ["include:x.example"]) =
      [{ RuleID := 2
         Description := "SPF record include count is acceptable"
         Status := "pass"
         Message := "SPF record contains 1 include mechanisms (limit is 10)" }] ∧
    (CheckSPFIncludeLimit (spfInfo elevenIncludes)).map RuleResult.Status = ["fail"] := by
  constructor
  · have h := (spf_include_limit_amended (spfInfo ["include:x.example"]) _ rfl).1
    rw [h]
    decide
  · exact (spf_include_limit_amended (spfInfo elevenIncludes) _ rfl).2 (by decide)

/-- Claim C7, counterexample: with the term `ptr` rule 1 appends exactly one
finding, but its status is the literal `"warning"`, not `"warn"` as the
claim states (the ptr rule is the one rule using the longer literal). -/
theorem spf_ptr_status_counterexample :
    (CheckSPFPtrUsage (spfInfo ["ptr"])).map RuleResult.Status = ["warning"] ∧
    ∀ r ∈ CheckSPFPtrUsage (spfInfo ["ptr"]), r.Status ≠ "warn" := by
  decide

/-- Claim C7, amended: with a nil SPF record rule 1 (`CheckSPFPtrUsage`)
appends nothing; with a non-nil record containing a term equal to `ptr` or
prefixed with `ptr` it appends exactly one finding with status `"warning"`
(not `"warn"`); with no such term it appends exactly one finding with status
`"pass"`. -/
theorem spf_ptr_usage_amended (info : DomainInfo) :
    (info.SPFRecord = none → CheckSPFPtrUsage info = []) ∧
    (∀ spf, info.SPFRecord = some spf →
      ((∃ t ∈ spf.Terms, goStartsWith t "ptr" = true ∨ t = "ptr") →
        CheckSPFPtrUsage info =
          [{ RuleID := 1
             Description := "SPF record uses deprecated ptr: mechanism"
             Status := "warning"
             Message := "The ptr: mechanism in SPF records is deprecated due to performance issues and should be avoided" }]) ∧
      ((∀ t ∈ spf.Terms, ¬(goStartsWith t "ptr" = true ∨ t = "ptr")) →
        CheckSPFPtrUsage info =
          [{ RuleID := 1
             Description := "SPF record doesn\x27t use deprecated ptr: mechanism"
             Status := "pass"
             Message := "No ptr: mechanism found in SPF record" }])) := by
  constructor
  · intro h
    simp [CheckSPFPtrUsage, h]
  · intro spf hrec
    constructor
    · intro hex
      have hscan : ptrScan spf.Terms = true := (ptrScan_true_iff spf.Terms).mpr hex
      simp [CheckSPFPtrUsage, hrec, hscan]
    · intro hall
      have hscan : ptrScan spf.Terms = false := by
        cases hx : ptrScan spf.Terms
        · rfl
        · rcases (ptrScan_true_iff spf.Terms).mp hx with ⟨t, ht, hcond⟩
          exact absurd hcond (hall t ht)
      simp [CheckSPFPtrUsage, hrec, hscan]

/-- Witness for the amended claim C7 at the term list `["a", "ptr:x.example"]`
(warning case) and at `["include:a.example"]` (pass case). -/
theorem spf_ptr_usage_amended_witness :
    (CheckSPFPtrUsage (spfInfo ["a", "ptr:x.example"])).map RuleResult.Status = ["warning"] ∧
    (CheckSPFPtrUsage (spfInfo ["include:a.example"])).map RuleResult.Status = ["pass"] := by
  constructor
  · have h := ((spf_ptr_usage_amended (spfInfo ["a", "ptr:x.example"])).2 _ rfl).1
      (by decide)
    rw [h]
    decide
  · have h := ((spf_ptr_usage_amended (spfInfo ["include:a.example"])).2 _ rfl).2
      (by decide)
    rw [h]
    decide

set_option maxRecDepth 32768 in
/-- Claim C2, code bug: the rule pass is not deterministic, so two runs on
the same immutable profile need not produce byte-identical finding lists.
On `privateMXInfo` (two MX hosts, each with one private IPv6 address - the
family `isPrivateIP` can actually match, since IPv4 candidates never fall
between the 16-byte bounds) rule 15
builds its message by iterating the Go map `mxWithPrivateIPs`; the map holds
the same two entries either way (`List.reverse` is a permutation of the
association list), but the two iteration orders - both possible in a Go run,
since map range order is unspecified - produce different `Message` strings,
hence different finding lists. All other rules, and every field but rule
15's message, are order-independent. -/
theorem applyAllRules_map_order_nondeterminism :
    (mxPrivateEntries privateMXInfo.MXRecords).reverse.Perm
        (mxPrivateEntries privateMXInfo.MXRecords) ∧
    ApplyAllRules (fun l => l.reverse) privateMXInfo ≠
      ApplyAllRules (fun l => l) privateMXInfo :=
  ⟨List.reverse_perm _, by decide⟩

/-- Claim C5, counterexample: `dmarcCexAnswers` contains a TXT record with
case-insensitive prefix `v=dmarc1` and no `p` tag (its second entry), yet
`LookupDMARC` returns a record with `Valid = true`, because the lookup
parses the first matching record, which does carry `p=none`. -/
theorem dmarc_exists_claim_counterexample :
    (∃ t ∈ dmarcCexAnswers, goStartsWith (goToLower t) "v=dmarc1" = true ∧
      (parseDMARCRecord t "_dmarc.example.com").Tags "p" = none) ∧
    (lookupDMARC dmarcCexAnswers "_dmarc.example.com").map DMARCRecord.Valid =
      some true := by
  constructor
  · refine ⟨"v=DMARC1", by decide, by decide, by decide⟩
  · decide

/-- Claim C5, amended: whenever the first TXT answer with case-insensitive
prefix `v=dmarc1` parses to a record without a `p` tag, `LookupDMARC`
returns that parsed record non-nil with `Valid = false`, and the DMARC
existence rule (id 5, `CheckDMARCExists`) reports `pass` on any profile
carrying it: existence is decided solely by the record being non-nil,
independently of the validity flag. -/
theorem dmarc_no_p_invalid_but_exists (answers : List String)
    (dmarcDomain txtValue : String)
    (hfind : answers.find? (fun t => goStartsWith (goToLower t) "v=dmarc1") =
      some txtValue)
    (hnop : (parseDMARCRecord txtValue dmarcDomain).Tags "p" = none) :
    lookupDMARC answers dmarcDomain = some (parseDMARCRecord txtValue dmarcDomain) ∧
    (parseDMARCRecord txtValue dmarcDomain).Valid = false ∧
    ∀ info : DomainInfo,
      info.DMARCRecord = some (parseDMARCRecord txtValue dmarcDomain) →
        (CheckDMARCExists info).map RuleResult.Status = ["pass"] := by
  refine ⟨?_, parse_noP_invalid txtValue dmarcDomain hnop, ?_⟩
  · rw [lookupDMARC, hfind]
  · intro info h
    simp [CheckDMARCExists, h]

/-- Witness for the amended claim C5 at the answer set
`["adbc", "v=DMARC1; pct=50"]`. -/
theorem dmarc_no_p_invalid_but_exists_witness :
    lookupDMARC ["adbc", "v=DMARC1; pct=50"] "_dmarc.example.org" =
      some (parseDMARCRecord "v=DMARC1; pct=50" "_dmarc.example.org") ∧
    (parseDMARCRecord "v=DMARC1; pct=50" "_dmarc.example.org").Valid = false := by
  have h := dmarc_no_p_invalid_but_exists ["adbc", "v=DMARC1; pct=50"]
    "_dmarc.example.org" "v=DMARC1; pct=50" (by decide) (by decide)
  exact ⟨h.1, h.2.1⟩

/-- Claim C4: for every raw DMARC record string, the parser marks the record
invalid exactly when some non-empty `;`-segment lacks `=`, or some `v` tag
differs from `DMARC1`, or no well-formed segment carries a `p` tag; and a
segment without `=` never stops parsing: the final `Tags` map is exactly the
map folded from the well-formed `tag=value` segments alone, so every
well-formed segment elsewhere in the string is still captured. -/
theorem parseDMARC_validity_and_capture (raw loc : String) :
    ((parseDMARCRecord raw loc).Valid = false ↔
      (hasMalformedSeg raw = true ∨ hasBadVersionTag raw = true ∨
        hasPTag raw = false)) ∧
    (∀ k, (parseDMARCRecord raw loc).Tags k =
      ((segPairs raw).foldl (fun m kv => tagsSet m kv.1 kv.2) (fun _ => none)) k) := by
  refine ⟨parse_valid_iff raw loc, ?_⟩
  intro k
  rw [parse_tags_eq_last raw loc k, tags_foldl_apply]
  cases lastTagValue (segPairs raw) k <;> rfl

/-- Witness for claim C4 at `"v=DMARC1; oops; p=none"`: the malformed
middle segment makes the record invalid while the surrounding tags are
still captured. -/
theorem parseDMARC_validity_and_capture_witness :
    (parseDMARCRecord "v=DMARC1; oops; p=none" "_dmarc.example.com").Valid = false ∧
    (parseDMARCRecord "v=DMARC1; oops; p=none" "_dmarc.example.com").Tags "p" =
      ((segPairs "v=DMARC1; oops; p=none").foldl
        (fun m kv => tagsSet m kv.1 kv.2) (fun _ => none)) "p" := by
  constructor
  · exact (parseDMARC_validity_and_capture "v=DMARC1; oops; p=none"
      "_dmarc.example.com").1.mpr (by decide)
  · exact (parseDMARC_validity_and_capture "v=DMARC1; oops; p=none"
      "_dmarc.example.com").2 "p"

/-- Claim C10: duplicated tag keys never fail the parse and never make the
record invalid on their own account - validity is still exactly the
three-condition criterion, which never mentions duplication - and the `Tags`
map holds the single binding whose value is the last occurrence in the
string. -/
theorem parseDMARC_duplicate_last_wins (raw loc k : String)
    (hdup : 2 ≤ ((segPairs raw).filter (fun kv => kv.1 == k)).length) :
    (parseDMARCRecord raw loc).Tags k = lastTagValue (segPairs raw) k ∧
    ((parseDMARCRecord raw loc).Valid = false ↔
      (hasMalformedSeg raw = true ∨ hasBadVersionTag raw = true ∨
        hasPTag raw = false)) :=
  ⟨parse_tags_eq_last raw loc k, parse_valid_iff raw loc⟩

/-- Witness for claim C10 at `"v=DMARC1; p=none; p=reject"`: the `p` key
occurs twice and the parsed map carries the last value `reject`. -/
theorem parseDMARC_duplicate_last_wins_witness :
    (parseDMARCRecord "v=DMARC1; p=none; p=reject" "_dmarc.example.net").Tags "p" =
      some "reject" := by
  have h := (parseDMARC_duplicate_last_wins "v=DMARC1; p=none; p=reject"
    "_dmarc.example.net" "p" (by decide)).1
  rw [h]
  decide

theorem toLower_v_not_ws (c : Char) (h : c.toLower = 'v') : c.isWhitespace = false := by
  cases hw : c.isWhitespace
  · rfl
  · exfalso
    have h4 : ((c = ' ' ∨ c = '\t') ∨ c = '\x0d') ∨ c = '\n' := by
      simpa [Char.isWhitespace] using hw
    rcases h4 with ((rfl | rfl) | rfl) | rfl <;> exact absurd h (by decide)

/-- Claim C9: for every TXT string whose lowercase form starts with `v=spf1`,
the whitespace split of the SPF parser yields at least one field, so the
`terms[0]` indexing cannot go out of bounds (`parseSPFText` never hits its
panic case); the record whose entire text is `v=spf1` parses to an
`SPFRecord` with version `spf1` and an empty terms list, which as a `some`
value is distinct from the `none` used for "not found". -/
theorem spf_prefix_parse_safe (txtValue : String)
    (h : goStartsWith (goToLower txtValue) "v=spf1" = true) :
    goFields txtValue ≠ [] ∧ parseSPFText txtValue ≠ none ∧
    (txtValue = "v=spf1" →
      parseSPFText txtValue =
        some { Raw := "v=spf1", Version := "spf1", Terms := ([] : List String) } ∧
      (some { Raw := "v=spf1", Version := "spf1", Terms := ([] : List String) } :
        Option SPFRecord) ≠ none) := by
  have hpre : ("v=spf1" : String).data <+: txtValue.data.map Char.toLower := by
    rw [goStartsWith] at h
    have hdd : (goToLower txtValue).data = txtValue.data.map Char.toLower := rfl
    rw [hdd] at h
    exact List.isPrefixOf_iff_prefix.mp h
  obtain ⟨t, ht⟩ := hpre
  have hfields : goFields txtValue ≠ [] := by
    cases htd : txtValue.data with
    | nil =>
      rw [htd] at ht
      simp at ht
    | cons c cs =>
      rw [htd] at ht
      have hlit : ("v=spf1" : String).data = 'v' :: ['=', 's', 'p', 'f', '1'] := rfl
      rw [hlit, List.cons_append, List.map_cons] at ht
      have hv : c.toLower = 'v' := (List.cons.injEq _ _ _ _ ▸ ht).1.symm
      have hcw : c.isWhitespace = false := toLower_v_not_ws c hv
      rw [goFields, htd]
      rw [fieldsAux, if_neg (by simp [hcw])]
      have hne := fieldsAux_ne_nil cs (c :: [])
      simp at hne
      simpa using hne
  refine ⟨hfields, ?_, ?_⟩
  · rw [parseSPFText]
    cases hgf : goFields txtValue with
    | nil => exact absurd hgf hfields
    | cons t0 rest => simp
  · intro hval
    subst hval
    exact ⟨by decide, by decide⟩

/-- Witness for claim C9 at the mixed-case TXT value `"V=sPf1 a -all"` and
at the bare `"v=spf1"`. -/
theorem spf_prefix_parse_safe_witness :
    parseSPFText "V=sPf1 a -all" ≠ none ∧
    parseSPFText "v=spf1" =
      some { Raw := "v=spf1", Version := "spf1", Terms := ([] : List String) } := by
  constructor
  · exact (spf_prefix_parse_safe "V=sPf1 a -all" (by decide)).2.1
  · exact ((spf_prefix_parse_safe "v=spf1" (by decide)).2.2 rfl).1

/-- Claim C3: `LookupMXWithFallback` uses the primary result exactly when it
is a success with a non-empty list (so the system-resolver fallback is
consulted exactly on a resolver error or on a successful-but-empty result
set), and every successful fallback list consists of `(host, priority)`
records with no resolved address records, sorted ascending by priority. -/
theorem lookupMXWithFallback_contract (ans : Except String (List (String × Nat)))
    (resolve : String → Except String (List Record))
    (sys : Except String (List (String × Nat))) :
    (∀ l, lookupMX ans resolve = .ok l → l ≠ [] →
      lookupMXWithFallback ans resolve sys = .ok l) ∧
    (∀ e, lookupMX ans resolve = .error e →
      lookupMXWithFallback ans resolve sys = mxFallback sys) ∧
    (lookupMX ans resolve = .ok [] →
      lookupMXWithFallback ans resolve sys = mxFallback sys) ∧
    (∀ l, mxFallback sys = .ok l →
      (∀ r ∈ l, r.Records = []) ∧ l.Pairwise (fun a b => a.Priority ≤ b.Priority)) := by
  refine ⟨?_, ?_, ?_, fun l h => mxFallback_ok_shape h⟩
  · intro l hok hne
    rw [lookupMXWithFallback, hok]
    simp [List.length_pos_iff_ne_nil.mpr hne]
  · intro e herr
    rw [lookupMXWithFallback, herr]
  · intro hok
    rw [lookupMXWithFallback, hok]
    simp

/-- Witness for claim C3: an empty primary answer triggers the fallback,
whose records carry no addresses and come back sorted by priority. -/
theorem lookupMXWithFallback_contract_witness :
    lookupMXWithFallback (Except.ok []) (fun _ => Except.error "unreachable")
        (Except.ok [("mx2.example.com.", 20), ("mx1.example.com.", 10)]) =
      Except.ok [{ Host := "mx1.example.com", Priority := 10, Records := [] },
                 { Host := "mx2.example.com", Priority := 20, Records := [] }] := by
  have h := (lookupMXWithFallback_contract (Except.ok [])
    (fun _ => Except.error "unreachable")
    (Except.ok [("mx2.example.com.", 20), ("mx1.example.com.", 10)])).2.2.1 (by rfl)
  rw [h]
  rfl

/-- Claim C8: every successful MX list - from `LookupMX` and from
`LookupMXWithFallback` on either path - is sorted ascending by priority: any
element is less than or equal to every later one, so in particular each
adjacent pair is ordered. -/
theorem mx_lists_sorted (ans : Except String (List (String × Nat)))
    (resolve : String → Except String (List Record))
    (sys : Except String (List (String × Nat))) :
    (∀ l, lookupMX ans resolve = .ok l →
      l.Pairwise (fun a b => a.Priority ≤ b.Priority)) ∧
    (∀ l, lookupMXWithFallback ans resolve sys = .ok l →
      l.Pairwise (fun a b => a.Priority ≤ b.Priority)) := by
  have hmx : ∀ l, lookupMX ans resolve = .ok l →
      l.Pairwise (fun a b => a.Priority ≤ b.Priority) := by
    intro l h
    cases ans with
    | error e => simp [lookupMX] at h
    | ok mxAns =>
      simp only [lookupMX, Except.ok.injEq] at h
      rw [← h]
      exact pairwise_sortMX _
  refine ⟨hmx, ?_⟩
  intro l h
  cases hp : lookupMX ans resolve with
  | ok records =>
    simp only [lookupMXWithFallback, hp] at h
    by_cases hlen : records.length > 0
    · rw [if_pos hlen] at h
      cases h
      exact hmx _ hp
    · rw [if_neg hlen] at h
      exact (mxFallback_ok_shape h).2
  | error e =>
    simp only [lookupMXWithFallback, hp] at h
    exact (mxFallback_ok_shape h).2

/-- Witness for claim C8: primary answers arriving in priority order 30, 7,
30 come back sorted. -/
theorem mx_lists_sorted_witness :
    ([{ Host := "c.example.com", Priority := 7, Records := [] },
      { Host := "a.example.com", Priority := 30, Records := [] },
      { Host := "b.example.com", Priority := 30, Records := [] }] :
        List MXRecord).Pairwise (fun a b => a.Priority ≤ b.Priority) :=
  (mx_lists_sorted
    (Except.ok [("a.example.com.", 30), ("b.example.com.", 30), ("c.example.com.", 7)])
    (fun _ => Except.ok []) (Except.error "unused")).1 _ (by rfl)
